import Mathlib

/-!
Shallow embedding of the thermometer character-device driver
(`main.c` / `thermometer.h`) and proofs about its specification.

Machine integers are modelled as `Nat`/`Int` with explicit two's-complement
wrapping where the C code can overflow.  The kernel helpers are modelled by
their documented semantics: `div64_long` is signed 64-bit division truncating
toward zero, `snprintf(buf, n, ...)` writes at most `n - 1` characters plus a
terminating NUL, `strnlen(s, n)` is the length of the string bounded by `n`,
and `copy_to_user` is assumed to copy fully (returns 0 uncopied bytes).
-/

/-- Capacity of the temperature buffer (`TEMPURATURE_LENGTH` in the source). -/
def TEMPURATURE_LENGTH : Nat := 30

/-- Value of `sizeof(device->temperature)` in `thermometer_read`: `temperature`
is a `char *` field, so this is the size of a pointer on the 64-bit target. -/
def sizeofCharPtr : Nat := 8

/-- Errno value `EPERM`. -/
def EPERM : Int := 1

/-- Errno value `ERESTARTSYS`. -/
def ERESTARTSYS : Int := 512

/-- Errno value `ENOMEM`. -/
def ENOMEM : Int := 12

/-- Wrap an integer into the range of a 32-bit two's-complement `int`. -/
def int32wrap (x : Int) : Int := (x + 2 ^ 31) % 2 ^ 32 - 2 ^ 31

/-- Reinterpret a `u64` bit pattern as a signed 64-bit value (`s64`),
as the implicit conversion in `div64_long(time_elapsed, 10)` does. -/
def toS64 (x : Nat) : Int := ((x : Int) + 2 ^ 63) % 2 ^ 64 - 2 ^ 63

/-- Unsigned 64-bit subtraction `a - b` (wrapping), used for `end - start`. -/
def u64sub (a b : Nat) : Nat := (((a : Int) - (b : Int)) % 2 ^ 64).toNat

/-- `int time_to_resistance(u64 time_elapsed)`:
`return div64_long(time_elapsed, 10) + 600;` — the `u64` argument is
reinterpreted as `s64` by `div64_long`, divided toward zero by 10, 600 is
added in 64-bit arithmetic, and the result is truncated to `int`. -/
def time_to_resistance (time_elapsed : Nat) : Int :=
  int32wrap (Int.tdiv (toS64 time_elapsed) 10 + 600)

/-- `int resistance_to_tempurature(int resistance)`:
`int relative_resistance = resistance / 10;`
`return (relative_resistance * -10 + 22705) / 463;` — all `int` arithmetic;
the addition can overflow `int` and is wrapped, the final division cannot. -/
def resistance_to_tempurature (resistance : Int) : Int :=
  Int.tdiv (int32wrap (Int.tdiv resistance 10 * -10 + 22705)) 463

/-- The NUL character. -/
def nulChar : Char := Char.ofNat 0

/-- Length of a C string stored in a byte list: number of bytes before the
first NUL. -/
def cstrLen (buf : List Char) : Nat := (buf.takeWhile (fun c => c != nulChar)).length

/-- `strnlen(s, n)`: string length bounded by `n`. -/
def strnlen (buf : List Char) (n : Nat) : Nat := min (cstrLen buf) n

/-- ASCII digit character for `d < 10`. -/
def digitChar (d : Nat) : Char := Char.ofNat (48 + d)

/-- Decimal digits of `n`, least significant first; `fuel` bounds recursion
depth (any `fuel > n` is enough). -/
def natToRevDigits : Nat → Nat → List Char
  | _, 0 => []
  | n, fuel + 1 =>
    if n < 10 then [digitChar n]
    else digitChar (n % 10) :: natToRevDigits (n / 10) fuel

/-- Decimal representation of a natural number, most significant digit first.
A fuel of 20 exceeds the digit count of any 64-bit value, so it never runs
out on a value a C `%d` or `%llu` conversion can receive. -/
def natToDecimal (n : Nat) : List Char := (natToRevDigits n 20).reverse

/-- Decimal representation of an `int`, as `printf`'s `%d` renders it. -/
def intToDecimal (t : Int) : List Char :=
  if t < 0 then '-' :: natToDecimal t.natAbs else natToDecimal t.natAbs

/-- `snprintf(buf, cap, ...)` output: at most `cap - 1` bytes of the formatted
string, followed by a terminating NUL. -/
def snprintf (cap : Nat) (s : List Char) : List Char := s.take (cap - 1) ++ [nulChar]

/-- Overwrite the front of buffer `old` with `written`; bytes past the write
keep their previous contents. -/
def writeBuffer (old written : List Char) : List Char := written ++ old.drop written.length

-- Basic range lemmas for the machine-integer wrappers.

theorem int32wrap_eq_self {x : Int} (h1 : -(2 ^ 31) ≤ x) (h2 : x < 2 ^ 31) :
    int32wrap x = x := by
  unfold int32wrap
  rw [Int.emod_eq_of_lt (by omega) (by omega)]
  omega

theorem int32wrap_lb (x : Int) : -(2 ^ 31) ≤ int32wrap x := by
  unfold int32wrap
  have h := Int.emod_nonneg (x + 2 ^ 31) (b := 2 ^ 32) (by norm_num)
  omega

theorem int32wrap_ub (x : Int) : int32wrap x < 2 ^ 31 := by
  unfold int32wrap
  have h := Int.emod_lt_of_pos (x + 2 ^ 31) (b := 2 ^ 32) (by norm_num)
  omega

theorem toS64_eq_self {x : Nat} (h : x < 2 ^ 63) : toS64 x = x := by
  unfold toS64
  rw [Int.emod_eq_of_lt (by positivity) (by exact_mod_cast by omega)]
  omega

theorem u64sub_eq_sub {a b : Nat} (hb : b ≤ a) (ha : a - b < 2 ^ 64) :
    u64sub a b = a - b := by
  unfold u64sub
  have he : ((a : Int) - (b : Int)) = ((a - b : Nat) : Int) := by
    push_cast [hb]; ring
  rw [he, Int.emod_eq_of_lt (by positivity) (by exact_mod_cast ha)]
  simp

-- The driver interface, embedded as pure functions on explicit state.

/-- Access mode of a session: `filp->f_flags & O_ACCMODE`. -/
inductive AccMode
  | rdonly
  | wronly
  | rdwr
deriving DecidableEq

/-- One GPIO or monotonic-clock action performed during a measurement. -/
inductive GpioClockEvent
  | setOutput (v : Bool)
  | sleepMs (ms : Nat)
  | readClock (t : Nat)
  | pollInput (v : Bool)
deriving DecidableEq

/-- Environment of one `thermometer_open` call: whether the interruptible
mutex acquisition is aborted by a signal, the number of polls of the input
pin that read low before one reads high, the two monotonic-clock readings,
and the device buffer contents before the call. -/
structure OpenInput where
  lockInterrupted : Bool
  polls : Nat
  t0 : Nat
  t1 : Nat
  buffer : List Char
deriving DecidableEq

/-- Observable outcome of one `thermometer_open` call. -/
structure OpenOutput where
  retval : Int
  buffer : List Char
  trace : List GpioClockEvent
  lockTaken : Bool
  lockHeldAtReturn : Bool
deriving DecidableEq

/-- `int thermometer_open(struct inode *inode, struct file *filp)`:
on an interrupted `mutex_lock_interruptible` it returns `-ERESTARTSYS`
having touched nothing; otherwise it drives the output pin low, sleeps 5 ms,
reads the clock, drives the output pin high, polls the input pin until it
reads high, reads the clock again, converts `end - start` through
`time_to_resistance` and `resistance_to_tempurature`, writes the result with
`snprintf(device->temperature, TEMPURATURE_LENGTH, "%d\n", tempurature)`,
drives the output pin low, unlocks, and returns 0. -/
def thermometer_open (inp : OpenInput) : OpenOutput :=
  if inp.lockInterrupted then
    { retval := -ERESTARTSYS, buffer := inp.buffer, trace := [],
      lockTaken := false, lockHeldAtReturn := false }
  else
    { retval := 0,
      buffer := writeBuffer inp.buffer (snprintf TEMPURATURE_LENGTH
        (intToDecimal (resistance_to_tempurature
          (time_to_resistance (u64sub inp.t1 inp.t0))) ++ ['\n'])),
      trace := [GpioClockEvent.setOutput false, GpioClockEvent.sleepMs 5,
          GpioClockEvent.readClock inp.t0, GpioClockEvent.setOutput true]
        ++ List.replicate inp.polls (GpioClockEvent.pollInput false)
        ++ [GpioClockEvent.pollInput true, GpioClockEvent.readClock inp.t1,
          GpioClockEvent.setOutput false],
      lockTaken := true, lockHeldAtReturn := false }

/-- Value driven on the output pin by the last `setOutput` of a trace. -/
def lastOutputValue (tr : List GpioClockEvent) : Option Bool :=
  tr.foldl
    (fun acc ev =>
      match ev with
      | GpioClockEvent.setOutput v => some v
      | _ => acc)
    none

/-- Environment of one `thermometer_read` call. -/
structure ReadInput where
  accMode : AccMode
  lockInterrupted : Bool
  buffer : List Char
  fpos : Nat
  count : Nat
deriving DecidableEq

/-- Observable outcome of one `thermometer_read` call. -/
structure ReadOutput where
  retval : Int
  copied : List Char
  fpos : Nat
  buffer : List Char
  lockTaken : Bool
  lockHeldAtReturn : Bool
deriving DecidableEq

/-- `ssize_t thermometer_read(...)`: write-only sessions take the
`insufficient_permissions` exit and interrupted lock acquisitions take the
`device_mutex_lock_failed` exit; on both, `return_val` is assigned (`-EPERM`,
`-ERESTARTSYS`) but the function's single `return copy_len;` statement
returns `copy_len`, still 0.  Otherwise the string length is computed as
`strnlen(device->temperature, sizeof(device->temperature))` — a bound of
`sizeof(char *)` bytes, not the buffer capacity — a cursor at or past it
reports 0 bytes, and otherwise `min(count, str_len - *f_pos)` bytes are
copied out from offset `*f_pos` and the cursor advances by that amount. -/
def thermometer_read (inp : ReadInput) : ReadOutput :=
  if inp.accMode = AccMode.wronly then
    { retval := 0, copied := [], fpos := inp.fpos, buffer := inp.buffer,
      lockTaken := false, lockHeldAtReturn := false }
  else if inp.lockInterrupted then
    { retval := 0, copied := [], fpos := inp.fpos, buffer := inp.buffer,
      lockTaken := false, lockHeldAtReturn := false }
  else if inp.fpos ≥ strnlen inp.buffer sizeofCharPtr then
    { retval := 0, copied := [], fpos := inp.fpos, buffer := inp.buffer,
      lockTaken := true, lockHeldAtReturn := false }
  else
    { retval := ((min inp.count (strnlen inp.buffer sizeofCharPtr - inp.fpos) : Nat) : Int),
      copied := (inp.buffer.drop inp.fpos).take
        (min inp.count (strnlen inp.buffer sizeofCharPtr - inp.fpos)),
      fpos := inp.fpos + min inp.count (strnlen inp.buffer sizeofCharPtr - inp.fpos),
      buffer := inp.buffer, lockTaken := true, lockHeldAtReturn := false }

/-- Bytes produced by repeated 1-byte reads of a read-only, uninterrupted
session, starting at cursor `fpos` and stopping at the first read that
reports 0 bytes copied; `fuel` bounds the iteration count. -/
def singleByteReads (buf : List Char) : Nat → Nat → List Char
  | _, 0 => []
  | fpos, fuel + 1 =>
    let out := thermometer_read
      { accMode := AccMode.rdonly, lockInterrupted := false,
        buffer := buf, fpos := fpos, count := 1 }
    if out.retval = 0 then [] else out.copied ++ singleByteReads buf out.fpos fuel

/-- Bytes produced by a sequence of reads with the given request sizes, on a
read-only, uninterrupted session starting at cursor `fpos`. -/
def readSeq (buf : List Char) : Nat → List Nat → List Char
  | _, [] => []
  | fpos, c :: cs =>
    let out := thermometer_read
      { accMode := AccMode.rdonly, lockInterrupted := false,
        buffer := buf, fpos := fpos, count := c }
    out.copied ++ readSeq buf out.fpos cs

-- Module load and unload, as resource acquisition/release bookkeeping.

/-- The resources `thermometer_init_module` acquires, in order. -/
inductive Resource
  | chrdevRegion
  | tempBuffer
  | deviceMutex
  | outputPin
  | inputPin
  | cdevAdd
deriving DecidableEq

/-- Acquisition order in `thermometer_init_module`: `alloc_chrdev_region`,
temperature-buffer `kmalloc_array`, mutex `kmalloc` + `mutex_init`,
`gpio_request_one(OUTPUT_PIN, ...)`, `gpio_request_one(INPUT_PIN, ...)`,
`cdev_add`. -/
def acquisitionOrder : List Resource :=
  [Resource.chrdevRegion, Resource.tempBuffer, Resource.deviceMutex,
   Resource.outputPin, Resource.inputPin, Resource.cdevAdd]

/-- Outcome of `thermometer_init_module`: which resources were acquired, which
were released on the way out, and the returned value. -/
structure InitResult where
  acquired : List Resource
  released : List Resource
  retval : Int
deriving DecidableEq

/-- `int thermometer_init_module(void)` as a function of the first failing
acquisition (`none` = all succeed) and of the error code `externErr < 0`
delivered by `alloc_chrdev_region` or `cdev_add` when that is the failing
step.  Each arm transcribes the `goto` unwind chain of the source: note the
chain between `tempurature_malloc_failed` and `alloc_chrdev_failed` frees
nothing, so the character-device region is never unregistered on failure. -/
def thermometer_init_module (failAt : Option Resource) (externErr : Int) : InitResult :=
  match failAt with
  | none =>
      { acquired := acquisitionOrder, released := [], retval := 0 }
  | some Resource.chrdevRegion =>
      { acquired := [], released := [], retval := externErr }
  | some Resource.tempBuffer =>
      { acquired := [Resource.chrdevRegion], released := [], retval := -ENOMEM }
  | some Resource.deviceMutex =>
      { acquired := [Resource.chrdevRegion, Resource.tempBuffer],
        released := [Resource.tempBuffer], retval := -ENOMEM }
  | some Resource.outputPin =>
      { acquired := [Resource.chrdevRegion, Resource.tempBuffer, Resource.deviceMutex],
        released := [Resource.deviceMutex, Resource.tempBuffer],
        retval := -ERESTARTSYS }
  | some Resource.inputPin =>
      { acquired := [Resource.chrdevRegion, Resource.tempBuffer, Resource.deviceMutex,
          Resource.outputPin],
        released := [Resource.outputPin, Resource.deviceMutex, Resource.tempBuffer],
        retval := -ERESTARTSYS }
  | some Resource.cdevAdd =>
      { acquired := [Resource.chrdevRegion, Resource.tempBuffer, Resource.deviceMutex,
          Resource.outputPin, Resource.inputPin],
        released := [Resource.inputPin, Resource.outputPin, Resource.deviceMutex,
          Resource.tempBuffer],
        retval := externErr }

/-- `void thermometer_cleanup_module(void)`: release order as written in the
source — `cdev_del`, `unregister_chrdev_region`, `gpio_free(INPUT_PIN)`,
`gpio_free(OUTPUT_PIN)`, `mutex_destroy` + `kfree`, `kfree(temperature)`. -/
def thermometer_cleanup_module : List Resource :=
  [Resource.cdevAdd, Resource.chrdevRegion, Resource.inputPin,
   Resource.outputPin, Resource.deviceMutex, Resource.tempBuffer]

-- Helper lemmas for the calibration converter.

theorem resistance_to_tempurature_eq_ediv {r : Int} (h0 : 0 ≤ r) (h2 : r ≤ 2000) :
    resistance_to_tempurature r = (r / 10 * -10 + 22705) / 463 := by
  unfold resistance_to_tempurature
  rw [Int.tdiv_eq_ediv h0 (by norm_num)]
  have hd1 : 0 ≤ r / 10 := Int.ediv_nonneg h0 (by norm_num)
  have hd2 : r / 10 ≤ 200 := by omega
  rw [int32wrap_eq_self (by omega) (by omega), Int.tdiv_eq_ediv (by omega) (by norm_num)]

/-- C6: counterexample to "temperature strictly decreases as resistance
increases over this range": raising the resistance from 1000 to 1009 leaves
the computed temperature unchanged at 46, because both truncating divisions
collapse the difference. -/
theorem resistance_increase_can_leave_temperature_unchanged :
    (1000 : Int) < 1009 ∧ (1009 : Int) ≤ 2000 ∧
    resistance_to_tempurature 1000 = 46 ∧
    resistance_to_tempurature 1009 = 46 ∧
    ¬ resistance_to_tempurature 1009 < resistance_to_tempurature 1000 := by
  decide

/-- C6 (amended): `resistance_to_tempurature` computes, with truncating
(toward-zero) integer division, `relative = resistance / 10` and
`result = (relative * -10 + 22705) / 463` (for every `int` input whose
intermediate sum does not overflow, i.e. `resistance ≥ -2147460949`);
`resistance_to_tempurature 1000 = 46` and `resistance_to_tempurature 2000
= 44`; over the range 1000–2000 the temperature is non-increasing as the
resistance increases, and strictly lower at 2000 than at 1000 (but not
strictly decreasing pointwise). -/
theorem resistance_to_tempurature_spec :
    resistance_to_tempurature 1000 = 46 ∧
    resistance_to_tempurature 2000 = 44 ∧
    resistance_to_tempurature 2000 < resistance_to_tempurature 1000 ∧
    (∀ r1 r2 : Int, 1000 ≤ r1 → r1 ≤ r2 → r2 ≤ 2000 →
      resistance_to_tempurature r2 ≤ resistance_to_tempurature r1) ∧
    (∀ r : Int, -2147460949 ≤ r → r < 2 ^ 31 →
      resistance_to_tempurature r = Int.tdiv (Int.tdiv r 10 * -10 + 22705) 463) := by
  refine ⟨by decide, by decide, by decide, ?_, ?_⟩
  · intro r1 r2 h1 h12 h2
    rw [resistance_to_tempurature_eq_ediv (by omega) (by omega),
        resistance_to_tempurature_eq_ediv (by omega) (by omega)]
    omega
  · intro r hlo hhi
    unfold resistance_to_tempurature
    rcases le_or_lt 0 r with hr | hr
    · rw [Int.tdiv_eq_ediv hr (by norm_num)]
      rw [int32wrap_eq_self (by omega) (by omega)]
    · have hneg := Int.neg_tdiv (-r) 10
      rw [neg_neg] at hneg
      rw [Int.tdiv_eq_ediv (show (0 : Int) ≤ -r by omega) (by norm_num)] at hneg
      rw [hneg, int32wrap_eq_self (by omega) (by omega)]

/-- C6 witness: the amended monotonicity applied at the concrete pair
1500 ≤ 1600. -/
theorem resistance_to_tempurature_spec_witness :
    resistance_to_tempurature 1600 ≤ resistance_to_tempurature 1500 :=
  resistance_to_tempurature_spec.2.2.2.1 1500 1600 (by norm_num) (by norm_num)
    (by norm_num)

/-- C7: counterexample — at the representable elapsed count `2 ^ 64 - 1`,
`time_to_resistance` returns 600 (the `u64` is reinterpreted as the `s64`
value −1 by `div64_long`), not `elapsed / 10 + 600`. -/
theorem time_to_resistance_diverges_at_large_input :
    time_to_resistance (2 ^ 64 - 1) = 600 ∧
    time_to_resistance (2 ^ 64 - 1) ≠ (((2 ^ 64 - 1 : Nat) / 10 + 600 : Nat) : Int) := by
  refine ⟨by decide, ?_⟩
  intro h
  rw [show time_to_resistance (2 ^ 64 - 1) = 600 from by decide] at h
  norm_num at h

/-- C7 (amended): `time_to_resistance elapsed = elapsed / 10 + 600`
(truncating division) holds for every elapsed count up to 21474830479 ns —
i.e. whenever the mathematical result fits in `int` — and in particular
`time_to_resistance 0 = 600` and `time_to_resistance 10000 = 1600`; for
larger `u64` inputs the `s64` reinterpretation and `int` truncation make the
identity fail. -/
theorem time_to_resistance_linear_on_small_inputs :
    time_to_resistance 0 = 600 ∧ time_to_resistance 10000 = 1600 ∧
    ∀ e : Nat, e ≤ 21474830479 → time_to_resistance e = (((e / 10 + 600 : Nat)) : Int) := by
  refine ⟨by decide, by decide, ?_⟩
  intro e he
  unfold time_to_resistance
  rw [toS64_eq_self (by omega)]
  rw [show ((e : Int).tdiv 10) = ((e / 10 : Nat) : Int) from (Int.ofNat_tdiv e 10).symm]
  rw [int32wrap_eq_self (by omega) (by omega)]
  push_cast
  ring

/-- C7 witness: the amended identity applied at the concrete input 12340. -/
theorem time_to_resistance_linear_on_small_inputs_witness :
    time_to_resistance 12340 = ((12340 / 10 + 600 : Nat) : Int) :=
  time_to_resistance_linear_on_small_inputs.2.2 12340 (by norm_num)

/-- C2: a read on a write-only session takes the permission exit before any
lock or buffer access — but the function's shared `return copy_len;` returns
the initial `copy_len` of 0, not the `-EPERM` stored into the dead variable
`return_val`; so no Permission error reaches the caller, while the
no-lock/no-state-change half of the claim does hold. -/
theorem read_wronly_returns_zero_not_eperm :
    ∀ (locked : Bool) (buf : List Char) (p c : Nat),
      thermometer_read ⟨AccMode.wronly, locked, buf, p, c⟩ =
        ⟨0, [], p, buf, false, false⟩ ∧
      (0 : Int) ≠ -EPERM := by
  intro locked buf p c
  exact ⟨rfl, by decide⟩

/-- C3: an interrupted lock acquisition leaves buffer and cursor untouched in
both entry points, and `thermometer_open` does return `-ERESTARTSYS`; but
`thermometer_read` again returns its `copy_len` of 0 instead of the
`-ERESTARTSYS` stored into the dead `return_val`, so the read path reports no
retry-signaling error. -/
theorem interrupted_lock_open_errors_read_returns_zero :
    (∀ (polls t0 t1 : Nat) (obuf : List Char),
      thermometer_open ⟨true, polls, t0, t1, obuf⟩ =
        ⟨-ERESTARTSYS, obuf, [], false, false⟩) ∧
    (∀ (buf : List Char) (p c : Nat),
      thermometer_read ⟨AccMode.rdonly, true, buf, p, c⟩ =
        ⟨0, [], p, buf, false, false⟩) ∧
    (0 : Int) ≠ -ERESTARTSYS := by
  refine ⟨fun polls t0 t1 obuf => rfl, fun buf p c => rfl, by decide⟩

/-- C8: a read whose cursor is at or past the buffer string's length (the
bounded scan can only report a length below the capacity bound, and the
`sizeof`-bound below it) takes the `close_function` exit: the lock is taken
and released, 0 bytes are reported with no error, and cursor and buffer are
unchanged. -/
theorem read_at_eof_returns_zero (inp : ReadInput)
    (hmode : inp.accMode ≠ AccMode.wronly) (hlock : inp.lockInterrupted = false)
    (hpos : strnlen inp.buffer TEMPURATURE_LENGTH ≤ inp.fpos) :
    thermometer_read inp = ⟨0, [], inp.fpos, inp.buffer, true, false⟩ := by
  have h8 : strnlen inp.buffer sizeofCharPtr ≤ inp.fpos := by
    have hm : strnlen inp.buffer sizeofCharPtr ≤ strnlen inp.buffer TEMPURATURE_LENGTH :=
      min_le_min_left _ (by decide)
    omega
  unfold thermometer_read
  rw [if_neg hmode, hlock]
  simp only [Bool.false_eq_true, if_false]
  rw [if_pos h8]

/-- C8 witness: the theorem applied at a concrete session whose cursor sits
exactly at the end of the string `"72\n"`. -/
theorem read_at_eof_returns_zero_witness :
    thermometer_read ⟨AccMode.rdonly, false, ['7', '2', '\n'] ++ List.replicate 27 nulChar, 3, 5⟩ =
      ⟨0, [], 3, ['7', '2', '\n'] ++ List.replicate 27 nulChar, true, false⟩ :=
  read_at_eof_returns_zero _ (by decide) rfl (by decide)

/-- C10: counterexample — when the temperature-buffer allocation fails, the
already-acquired character-device region is acquired but not released (the
unwind chain frees nothing between `tempurature_malloc_failed` and
`alloc_chrdev_failed`), so the released list is not the reverse of the
acquired list; and the unload order releases the character-device region
second, not last, so it is not the strict reverse of the acquisition order
either. -/
theorem init_failure_leaks_chrdev_region :
    (thermometer_init_module (some Resource.tempBuffer) (-1)).acquired =
      [Resource.chrdevRegion] ∧
    (thermometer_init_module (some Resource.tempBuffer) (-1)).released = [] ∧
    (thermometer_init_module (some Resource.tempBuffer) (-1)).released ≠
      (thermometer_init_module (some Resource.tempBuffer) (-1)).acquired.reverse ∧
    thermometer_cleanup_module ≠ acquisitionOrder.reverse := by
  decide

/-- C10 (amended): at every load-time failure point the resources released
are exactly those acquired after the character-device region, in strict
reverse order of acquisition — the character-device region itself is never
released on a load failure — and a single error is reported; at unload every
resource is released exactly once, the cdev first and the character-device
region second rather than last, the remaining resources in strict reverse
order of acquisition. -/
theorem init_unwind_reverse_except_chrdev :
    (∀ (failStep : Resource) (externErr : Int),
      (thermometer_init_module (some failStep) externErr).released =
        ((thermometer_init_module (some failStep) externErr).acquired.filter
          (fun r => r != Resource.chrdevRegion)).reverse) ∧
    (∀ externErr : Int, (thermometer_init_module none externErr).released = []) ∧
    (∀ (failAt : Option Resource) (externErr : Int), externErr < 0 → failAt ≠ none →
      (thermometer_init_module failAt externErr).retval < 0) ∧
    List.Perm thermometer_cleanup_module acquisitionOrder ∧
    thermometer_cleanup_module.head? = some Resource.cdevAdd ∧
    thermometer_cleanup_module[1]? = some Resource.chrdevRegion ∧
    thermometer_cleanup_module.filter (fun r => r != Resource.chrdevRegion) =
      (acquisitionOrder.filter (fun r => r != Resource.chrdevRegion)).reverse := by
  refine ⟨?_, fun externErr => rfl, ?_, by decide, by decide, by decide, by decide⟩
  · intro failStep externErr
    cases failStep <;> rfl
  · intro failAt externErr herr hne
    rcases failAt with _ | r
    · exact absurd rfl hne
    · cases r <;> simp [thermometer_init_module, ENOMEM, ERESTARTSYS] <;> omega

/-- C10 witness: the amended error-reporting conjunct applied at the concrete
failure of `alloc_chrdev_region` with error code −5. -/
theorem init_unwind_reverse_except_chrdev_witness :
    (thermometer_init_module (some Resource.chrdevRegion) (-5)).retval < 0 :=
  init_unwind_reverse_except_chrdev.2.2.1 (some Resource.chrdevRegion) (-5)
    (by norm_num) (by simp)

/-- C9: a measurement inside an uninterrupted open performs exactly the
sequence drive-low, 5 ms settle, clock read T0, drive-high, poll the input
until it reads high, clock read T1, drive-low, in that order; the last value
driven on the output pin is low, and the call returns 0. -/
theorem open_gpio_clock_sequence (inp : OpenInput)
    (hlock : inp.lockInterrupted = false) :
    (thermometer_open inp).trace =
      [GpioClockEvent.setOutput false, GpioClockEvent.sleepMs 5,
        GpioClockEvent.readClock inp.t0, GpioClockEvent.setOutput true]
      ++ List.replicate inp.polls (GpioClockEvent.pollInput false)
      ++ [GpioClockEvent.pollInput true, GpioClockEvent.readClock inp.t1,
        GpioClockEvent.setOutput false] ∧
    lastOutputValue (thermometer_open inp).trace = some false ∧
    (thermometer_open inp).retval = 0 := by
  unfold thermometer_open
  rw [hlock]
  simp only [Bool.false_eq_true, if_false]
  refine ⟨by trivial, ?_, by trivial⟩
  unfold lastOutputValue
  rw [List.foldl_append, List.foldl_append]
  rfl

/-- C9 witness: the theorem applied at a concrete uninterrupted open with
three failed polls. -/
theorem open_gpio_clock_sequence_witness :
    (thermometer_open ⟨false, 3, 100, 4200, List.replicate 30 nulChar⟩).trace =
      [GpioClockEvent.setOutput false, GpioClockEvent.sleepMs 5,
        GpioClockEvent.readClock 100, GpioClockEvent.setOutput true]
      ++ List.replicate 3 (GpioClockEvent.pollInput false)
      ++ [GpioClockEvent.pollInput true, GpioClockEvent.readClock 4200,
        GpioClockEvent.setOutput false] ∧
    lastOutputValue (thermometer_open ⟨false, 3, 100, 4200,
      List.replicate 30 nulChar⟩).trace = some false ∧
    (thermometer_open ⟨false, 3, 100, 4200, List.replicate 30 nulChar⟩).retval = 0 :=
  open_gpio_clock_sequence _ rfl

-- Decimal formatting and C-string lemmas.

theorem digitChar_ne_nul : ∀ d : Nat, d < 10 → digitChar d ≠ nulChar := by decide

theorem natToRevDigits_ne_nul :
    ∀ (fuel n : Nat), ∀ c ∈ natToRevDigits n fuel, c ≠ nulChar := by
  intro fuel
  induction fuel with
  | zero => intro n c hc; simp [natToRevDigits] at hc
  | succ f ih =>
    intro n c hc
    unfold natToRevDigits at hc
    by_cases h : n < 10
    · rw [if_pos h] at hc
      simp only [List.mem_singleton] at hc
      subst hc
      exact digitChar_ne_nul n h
    · rw [if_neg h] at hc
      rcases List.mem_cons.mp hc with h1 | h2
      · subst h1
        exact digitChar_ne_nul _ (Nat.mod_lt _ (by norm_num))
      · exact ih _ c h2

theorem natToRevDigits_length :
    ∀ (fuel n k : Nat), 1 ≤ k → n < 10 ^ k → k ≤ fuel →
      (natToRevDigits n fuel).length ≤ k := by
  intro fuel
  induction fuel with
  | zero => intro n k hk _ hf; omega
  | succ f ih =>
    intro n k hk hn hf
    unfold natToRevDigits
    by_cases h : n < 10
    · rw [if_pos h]
      simpa using hk
    · rw [if_neg h]
      have hk2 : 2 ≤ k := by
        rcases Nat.lt_or_ge k 2 with hklt | hkge
        · exfalso
          have hk1 : k = 1 := by omega
          rw [hk1, pow_one] at hn
          omega
        · exact hkge
      have hdiv : n / 10 < 10 ^ (k - 1) := by
        rw [Nat.div_lt_iff_lt_mul (by norm_num)]
        have hpow : 10 ^ (k - 1) * 10 = 10 ^ k := by
          rw [← pow_succ]
          congr 1
          omega
        omega
      have hlen := ih (n / 10) (k - 1) (by omega) hdiv (by omega)
      simp only [List.length_cons]
      omega

theorem intToDecimal_ne_nul (t : Int) : ∀ c ∈ intToDecimal t, c ≠ nulChar := by
  intro c hc
  unfold intToDecimal natToDecimal at hc
  by_cases ht : t < 0
  · rw [if_pos ht] at hc
    rcases List.mem_cons.mp hc with h1 | h2
    · subst h1; decide
    · exact natToRevDigits_ne_nul _ _ c (List.mem_reverse.mp h2)
  · rw [if_neg ht] at hc
    exact natToRevDigits_ne_nul _ _ c (List.mem_reverse.mp hc)

theorem intToDecimal_length {t : Int} (h : t.natAbs < 10 ^ 7) :
    (intToDecimal t).length ≤ 8 := by
  have hlen := natToRevDigits_length 20 t.natAbs 7 (by norm_num) h (by norm_num)
  unfold intToDecimal natToDecimal
  by_cases ht : t < 0
  · rw [if_pos ht]
    simp only [List.length_cons, List.length_reverse]
    omega
  · rw [if_neg ht]
    simp only [List.length_reverse]
    omega

theorem resistance_to_tempurature_natAbs_lt (r : Int) :
    (resistance_to_tempurature r).natAbs < 10 ^ 7 := by
  unfold resistance_to_tempurature
  have h1 := int32wrap_lb (Int.tdiv r 10 * -10 + 22705)
  have h2 := int32wrap_ub (Int.tdiv r 10 * -10 + 22705)
  have h3 : (Int.tdiv (int32wrap (Int.tdiv r 10 * -10 + 22705)) 463).natAbs =
      (int32wrap (Int.tdiv r 10 * -10 + 22705)).natAbs / 463 :=
    Int.natAbs_tdiv _ 463
  omega

theorem takeWhile_append_nul (s t : List Char) (hs : ∀ c ∈ s, c ≠ nulChar) :
    (s ++ nulChar :: t).takeWhile (fun c => c != nulChar) = s := by
  induction s with
  | nil => simp [List.takeWhile_cons]
  | cons a s ih =>
    have ha : (a != nulChar) = true :=
      bne_iff_ne.mpr (hs a (List.mem_cons_self a s))
    simp only [List.cons_append, List.takeWhile_cons, ha, if_true]
    rw [ih (fun c hc => hs c (List.mem_cons_of_mem a hc))]

theorem snprintf_write_cstr (old s : List Char)
    (hlen : s.length ≤ TEMPURATURE_LENGTH - 1) (hs : ∀ c ∈ s, c ≠ nulChar) :
    (writeBuffer old (snprintf TEMPURATURE_LENGTH s)).takeWhile
      (fun c => c != nulChar) = s := by
  unfold writeBuffer snprintf
  rw [List.take_of_length_le hlen, List.append_assoc, List.singleton_append]
  exact takeWhile_append_nul s _ hs

/-- C1: after every open that acquires the lock (every uninterrupted open),
the temperature buffer holds exactly the decimal formatting of
`resistance_to_tempurature (time_to_resistance elapsed)` followed by a
newline, where `elapsed` is the measured `T1 - T0`; the written string always
fits the 30-byte capacity, so `snprintf` never truncates it. -/
theorem open_buffer_holds_formatted_temperature (inp : OpenInput)
    (hlock : inp.lockInterrupted = false) :
    (thermometer_open inp).retval = 0 ∧
    (thermometer_open inp).buffer.takeWhile (fun c => c != nulChar) =
      intToDecimal (resistance_to_tempurature
        (time_to_resistance (u64sub inp.t1 inp.t0))) ++ ['\n'] ∧
    (intToDecimal (resistance_to_tempurature
      (time_to_resistance (u64sub inp.t1 inp.t0))) ++ ['\n']).length + 1 ≤
      TEMPURATURE_LENGTH := by
  have hta := resistance_to_tempurature_natAbs_lt
    (time_to_resistance (u64sub inp.t1 inp.t0))
  have hdl := intToDecimal_length hta
  have hnn := intToDecimal_ne_nul (resistance_to_tempurature
    (time_to_resistance (u64sub inp.t1 inp.t0)))
  have hlen : (intToDecimal (resistance_to_tempurature
      (time_to_resistance (u64sub inp.t1 inp.t0))) ++ ['\n']).length ≤ 9 := by
    simp only [List.length_append, List.length_singleton]
    omega
  unfold thermometer_open
  rw [hlock]
  simp only [Bool.false_eq_true, if_false]
  refine ⟨by trivial, ?_, ?_⟩
  · apply snprintf_write_cstr
    · unfold TEMPURATURE_LENGTH
      omega
    · intro c hc
      rcases List.mem_append.mp hc with h1 | h2
      · exact hnn c h1
      · simp only [List.mem_singleton] at h2
        subst h2
        decide
  · unfold TEMPURATURE_LENGTH
    omega

/-- C1 witness: the theorem applied at a concrete uninterrupted open with
elapsed 10000 ns (temperature 45, buffer string `"45\n"`). -/
theorem open_buffer_holds_formatted_temperature_witness :
    (thermometer_open ⟨false, 0, 0, 10000, List.replicate 30 nulChar⟩).retval = 0 ∧
    (thermometer_open ⟨false, 0, 0, 10000,
        List.replicate 30 nulChar⟩).buffer.takeWhile (fun c => c != nulChar) =
      intToDecimal (resistance_to_tempurature
        (time_to_resistance (u64sub 10000 0))) ++ ['\n'] ∧
    (intToDecimal (resistance_to_tempurature
      (time_to_resistance (u64sub 10000 0))) ++ ['\n']).length + 1 ≤
      TEMPURATURE_LENGTH :=
  open_buffer_holds_formatted_temperature
    ⟨false, 0, 0, 10000, List.replicate 30 nulChar⟩ rfl

set_option maxRecDepth 8000

/-- C4: evaluation of the code at the failing input.  An uninterrupted open
with measured elapsed time 4630221100 ns yields temperature −1000000 and
writes the 9-byte string `"-1000000\n"`; because the read path bounds its
scan by `sizeof(char *)` = 8, sequential single-byte reads from cursor 0
until a read reports 0 bytes reconstruct only the first 8 bytes, dropping
the trailing newline — not the written string byte for byte. -/
theorem single_byte_reads_lose_tail_beyond_eight_bytes :
    (thermometer_open ⟨false, 0, 0, 4630221100, List.replicate 30 nulChar⟩).buffer.takeWhile
      (fun c => c != nulChar) = ['-', '1', '0', '0', '0', '0', '0', '0', '\n'] ∧
    singleByteReads
      (thermometer_open ⟨false, 0, 0, 4630221100, List.replicate 30 nulChar⟩).buffer
      0 TEMPURATURE_LENGTH = ['-', '1', '0', '0', '0', '0', '0', '0'] ∧
    singleByteReads
      (thermometer_open ⟨false, 0, 0, 4630221100, List.replicate 30 nulChar⟩).buffer
      0 TEMPURATURE_LENGTH ≠ ['-', '1', '0', '0', '0', '0', '0', '0', '\n'] := by
  refine ⟨by decide, by decide, by decide⟩

theorem readSeq_length_le :
    ∀ (counts : List Nat) (buf : List Char) (p : Nat),
      (readSeq buf p counts).length ≤ strnlen buf sizeofCharPtr - p := by
  intro counts
  induction counts with
  | nil => intro buf p; simp [readSeq]
  | cons c cs ih =>
    intro buf p
    have hread : thermometer_read ⟨AccMode.rdonly, false, buf, p, c⟩ =
        if p ≥ strnlen buf sizeofCharPtr then
          ⟨0, [], p, buf, true, false⟩
        else
          ⟨(min c (strnlen buf sizeofCharPtr - p) : Nat),
            (buf.drop p).take (min c (strnlen buf sizeofCharPtr - p)),
            p + min c (strnlen buf sizeofCharPtr - p), buf, true, false⟩ := rfl
    unfold readSeq
    rw [hread]
    by_cases h : p ≥ strnlen buf sizeofCharPtr
    · rw [if_pos h]
      simpa using ih buf p
    · rw [if_neg h]
      simp only [List.length_append, List.length_take, List.length_drop]
      have hrec := ih buf (p + min c (strnlen buf sizeofCharPtr - p))
      omega

/-- C5: the logical string length in `thermometer_read` is computed as
`strnlen(device->temperature, sizeof(device->temperature))` with
`temperature` a `char *`, so the scan bound is the 8-byte pointer size, not
the 30-byte capacity; consequently any session receives at most 8 bytes in
total across all its reads, and whenever the stored string is longer than 8
bytes every reader gets strictly fewer bytes than the string holds. -/
theorem read_scan_bounded_by_pointer_size :
    sizeofCharPtr = 8 ∧ TEMPURATURE_LENGTH = 30 ∧
    (∀ (buf : List Char) (counts : List Nat),
      (readSeq buf 0 counts).length ≤ sizeofCharPtr) ∧
    (∀ (buf : List Char) (counts : List Nat),
      sizeofCharPtr < strnlen buf TEMPURATURE_LENGTH →
      (readSeq buf 0 counts).length < strnlen buf TEMPURATURE_LENGTH) := by
  refine ⟨rfl, rfl, ?_, ?_⟩
  · intro buf counts
    have h1 := readSeq_length_le counts buf 0
    have h2 : strnlen buf sizeofCharPtr ≤ sizeofCharPtr := min_le_right _ _
    omega
  · intro buf counts hlong
    have h1 := readSeq_length_le counts buf 0
    have h2 : strnlen buf sizeofCharPtr ≤ sizeofCharPtr := min_le_right _ _
    omega

/-- C5 witness: the truncation conjunct applied at a buffer holding the
9-byte string `"-1000000\n"` and a single 30-byte read request. -/
theorem read_scan_bounded_by_pointer_size_witness :
    (readSeq (['-', '1', '0', '0', '0', '0', '0', '0', '\n'] ++
      List.replicate 21 nulChar) 0 [30]).length <
      strnlen (['-', '1', '0', '0', '0', '0', '0', '0', '\n'] ++
        List.replicate 21 nulChar) TEMPURATURE_LENGTH :=
  read_scan_bounded_by_pointer_size.2.2.2 _ [30] (by decide)
